import Mathlib

/-!
Verification of the OpenMandate mandate-enforcement core.

This file embeds, in Lean, the parts of the repository that the checked
claims are about:

* `src/mandate/tool-filter.ts` — `filterToolsByMandate`
* `src/mandate/composer.ts` — `composeMandates`
* `src/mandate/processors/escalation.processor.ts`
* `src/mandate/processors/limits.processor.ts`
* `src/mandate/processors/citation.processor.ts`
* `src/mandate/processors/tool-gate.processor.ts`
* `src/mandate/processors/data-access.processor.ts`

Processors signal termination through an `abort(reason, options)` callback;
in production that callback raises, so the first `abort` call ends the stage.
Following the specification, a stage is embedded as a pure function returning
a tagged result: either the (possibly rewritten) message list, or an abort
carrying the reason string and the retry flag (`retry: true` in the options
means a soft, retryable abort; a missing flag means a hard abort).
Side-effect-only audit-log calls, which never influence control flow or the
returned messages, are not represented.

Machine numbers are embedded as `Nat`: every numeric field involved is
schema-validated to be a positive integer, and no arithmetic in the embedded
code can overflow or go negative.
-/

/-! ## JavaScript-semantics helpers -/

/-- JS truthiness fallback `a || b` for optional strings: `undefined` and the
empty string are falsy. -/
def jsOrStr (a : Option String) (b : String) : String :=
  match a with
  | some s => if s = "" then b else s
  | none => b

/-- `[...new Set(xs)]`: deduplicate keeping the first occurrence of each
element, preserving order. -/
def jsDedupAux (seen : List String) : List String → List String
  | [] => []
  | x :: xs => if x ∈ seen then jsDedupAux seen xs else x :: jsDedupAux (x :: seen) xs

/-- `[...new Set(xs)]` over strings. -/
def jsDedup (xs : List String) : List String := jsDedupAux [] xs

/-- JS `String.prototype.includes` on character lists (substring test). -/
def listIncludes (hay needle : List Char) : Bool :=
  match hay with
  | [] => needle.isEmpty
  | _ :: t => needle.isPrefixOf hay || listIncludes t needle

/-- JS `String.prototype.includes`. -/
def strIncludes (hay needle : String) : Bool := listIncludes hay.data needle.data

/-- JS `String.prototype.startsWith` (character-list prefix test). -/
def strStartsWith (s pre : String) : Bool := pre.data.isPrefixOf s.data

/-- Character-wise string map. -/
def strMapChars (f : Char → Char) (s : String) : String := ⟨s.data.map f⟩

/-- JS `String.prototype.toLowerCase` (ASCII, the only case the embedded
texts exercise). -/
def strToLower (s : String) : String := strMapChars Char.toLower s

/-- JS `String.prototype.lastIndexOf` for a single character: the index of the
last occurrence, or `-1` when absent. -/
def lastIndexOfChar (cs : List Char) (c : Char) : Int :=
  match cs with
  | [] => -1
  | x :: t =>
    let r := lastIndexOfChar t c
    if r ≥ 0 then r + 1 else if x = c then 0 else -1

/-- JS `String.prototype.replace(pat, "")` with a string pattern: remove only
the FIRST occurrence of `pat`. -/
def removeFirstL (s pat : List Char) : List Char :=
  match s with
  | [] => []
  | c :: t => if pat.isPrefixOf s then s.drop pat.length else c :: removeFirstL t pat

/-- Remove the first occurrence of `pat` from `s` (JS single replace with ""). -/
def removeFirst (s pat : String) : String := ⟨removeFirstL s.data pat.data⟩

/-- JS `\w` word character: ASCII letter, digit or underscore. -/
def isWordChar (c : Char) : Bool := c.isAlpha || c.isDigit || c = '_'

/-- JS `\s` whitespace (the characters relevant to the embedded texts). -/
def isWsChar (c : Char) : Bool :=
  c = ' ' || c = '\t' || c = '\n' || c = '\r' || c = '\x0c' || c = '\x0b'

/-- A `\b` word boundary holds before a word character iff the previous
character (`none` at the start of the text) is not a word character. -/
def boundaryBefore (prev : Option Char) : Bool :=
  match prev with
  | none => true
  | some c => !isWordChar c

/-- A `\b` word boundary holds after a word character iff the next character
is absent (end of text) or not a word character. -/
def boundaryAfter (cs : List Char) : Bool :=
  match cs with
  | [] => true
  | c :: _ => !isWordChar c

/-- Regex search loop: try `matchHere prev suffix` at every suffix of the
text, tracking the character just before the current position. -/
def searchP (matchHere : Option Char → List Char → Bool) :
    Option Char → List Char → Bool
  | prev, [] => matchHere prev []
  | prev, c :: cs => matchHere prev (c :: cs) || searchP matchHere (some c) cs

/-- The character immediately preceding the end of `prev ++ u` (used to relate
`searchP` to explicit text splits). -/
def lastOpt (prev : Option Char) : List Char → Option Char
  | [] => prev
  | c :: cs => lastOpt (some c) cs

/-- Match a literal character sequence, returning the rest. -/
def matchLit (lit cs : List Char) : Option (List Char) :=
  match lit, cs with
  | [], rest => some rest
  | _ :: _, [] => none
  | l :: ls, c :: t => if c = l then matchLit ls t else none

/-- Match a literal case-insensitively (regex `/i`), returning the rest. -/
def matchLitCI (lit cs : List Char) : Option (List Char) :=
  match lit, cs with
  | [], rest => some rest
  | _ :: _, [] => none
  | l :: ls, c :: t => if c.toLower = l.toLower then matchLitCI ls t else none

/-- Drop a maximal run of whitespace. -/
def skipWsAll : List Char → List Char
  | [] => []
  | c :: t => if isWsChar c then skipWsAll t else c :: t

/-- Regex `\s+`: require at least one whitespace character, consume the run. -/
def skipWsOne (cs : List Char) : Option (List Char) :=
  match cs with
  | [] => none
  | c :: t => if isWsChar c then some (skipWsAll t) else none

/-- Regex `\d{n}`: exactly `n` digits. -/
def takeDigitsExact : Nat → List Char → Option (List Char)
  | 0, rest => some rest
  | _ + 1, [] => none
  | n + 1, c :: t => if c.isDigit then takeDigitsExact n t else none

/-- Regex `\d+`: at least one digit (consume the run). -/
def takeDigitsOne (cs : List Char) : Option (List Char) :=
  match cs with
  | [] => none
  | c :: t => if c.isDigit then some (t.dropWhile Char.isDigit) else none

/-- Regex `[A-Za-z]+`: at least one ASCII letter (consume the run). -/
def takeAlphaOne (cs : List Char) : Option (List Char) :=
  match cs with
  | [] => none
  | c :: t => if c.isAlpha then some (t.dropWhile Char.isAlpha) else none

/-! ## Data model (src/mandate/schema.ts)

The Zod schemas translate to Lean structures; `z.enum` values become
inductives, `.optional()` fields become `Option`. Numeric limit fields are
`z.number().int().min(1)` and are embedded as `Nat`. -/

/-- `DataAccessRuleSchema.permissions` entries. -/
inductive Perm where
  | read
  | write
deriving DecidableEq, Repr

/-- `DataAccessRuleSchema`. -/
structure DataAccessRule where
  scope : String
  permissions : List Perm
  file_types : Option (List String)
  databases : Option (List String)
deriving DecidableEq, Repr

/-- `DisclaimerRuleSchema.trigger` values. -/
inductive DisclaimerTrigger where
  | always
  | on_document_generation
  | on_legal_claim
  | on_claim
  | custom
deriving DecidableEq, Repr

/-- `DisclaimerRuleSchema.placement` values. -/
inductive DisclaimerPlacement where
  | start
  | «end»
  | both
deriving DecidableEq, Repr

/-- `DisclaimerRuleSchema`. -/
structure DisclaimerRule where
  trigger : DisclaimerTrigger
  text : String
  placement : DisclaimerPlacement
  custom_pattern : Option String
deriving DecidableEq, Repr

/-- `CitationRequirementsSchema.format` values. -/
inductive CitationFormat where
  | inline
  | footnote
  | «end»
deriving DecidableEq, Repr

/-- `CitationRequirementsSchema`. -/
structure CitationRequirements where
  required : Bool
  format : CitationFormat
  min_per_claim : Nat
  allowed_sources : List String
  blocked_sources : List String
deriving DecidableEq, Repr

/-- `HumanReviewConfigSchema`. -/
structure HumanReviewConfig where
  required_before : List String
  review_prompt : String
deriving DecidableEq, Repr

/-- `AuditConfigSchema.log_level` values. -/
inductive LogLevel where
  | full
  | actions_only
  | errors_only
deriving DecidableEq, Repr

/-- `AuditConfigSchema`. -/
structure AuditConfig where
  log_level : LogLevel
  include_llm_calls : Bool
  include_tool_calls : Bool
  retention_days : Nat
deriving DecidableEq, Repr

/-- `EscalationTriggerSchema.action` values. -/
inductive EscAction where
  | warn_user
  | refuse_and_redirect
  | provide_resources
  | disclose_and_defer
  | refuse
deriving DecidableEq, Repr

/-- `EscalationTriggerSchema`. -/
structure EscalationTrigger where
  condition : String
  threshold : Option Nat
  topics : Option (List String)
  action : EscAction
  message : String
  resources : Option (List String)
deriving DecidableEq, Repr

/-- `ScopeConfigSchema.behavior_on_unsupported` values. -/
inductive ScopeBehavior where
  | escalate
  | refuse
  | warn_and_attempt
deriving DecidableEq, Repr

/-- `ScopeConfigSchema`. -/
structure ScopeConfig where
  allowed : List String
  behavior_on_unsupported : ScopeBehavior
  escalation_message : String
deriving DecidableEq, Repr

/-- `MandateLimitsSchema` — all fields `z.number().int().min(1)`. -/
structure MandateLimits where
  max_tokens_per_turn : Nat
  max_tool_calls_per_turn : Nat
  max_turns_per_session : Nat
  max_concurrent_sessions : Nat
  token_budget_daily : Nat
  timeout_seconds : Nat
deriving DecidableEq, Repr

/-- `MandateSchema.metadata`. -/
structure MandateMetadata where
  name : String
  description : String
  author : String
  created : String
  tags : List String
  skill_packs : Option (List String)
deriving DecidableEq, Repr

/-- `MandateSchema.capabilities`. -/
structure MandateCapabilities where
  tools : List String
  data_access : List DataAccessRule
  output_types : List String
deriving DecidableEq, Repr

/-- `MandateSchema.prohibitions`. -/
structure MandateProhibitions where
  tools : List String
  actions : List String
  data : List String
deriving DecidableEq, Repr

/-- `MandateSchema.requirements`. -/
structure MandateRequirements where
  disclaimers : List DisclaimerRule
  citations : CitationRequirements
  human_review : HumanReviewConfig
  audit : AuditConfig
deriving DecidableEq, Repr

/-- `MandateSchema.escalation`. -/
structure MandateEscalation where
  triggers : List EscalationTrigger
deriving DecidableEq, Repr

/-- The full `MandateSchema`. -/
structure Mandate where
  version : String
  metadata : MandateMetadata
  capabilities : MandateCapabilities
  prohibitions : MandateProhibitions
  requirements : MandateRequirements
  scope : ScopeConfig
  escalation : MandateEscalation
  limits : MandateLimits
deriving DecidableEq, Repr

/-! ## Tool filtering (src/mandate/tool-filter.ts) -/

/-- An entry value of the `allTools` record: only the optional `id` field is
inspected by the filter (`tool.id || key`). -/
structure JsTool where
  id : Option String
deriving DecidableEq, Repr

/-- `tool.id || key` (JS truthiness: a missing or empty id falls back to the
record key). -/
def toolIdOf (key : String) (tool : JsTool) : String := jsOrStr tool.id key

/-- `t.includes("*")`. -/
def hasWildcard (t : String) : Bool := strIncludes t "*"

/-- `t.replace("-*", "").replace("*", "")` — each JS `replace` with a string
pattern removes only the first occurrence. -/
def stripWildcard (t : String) : String := removeFirst (removeFirst t "-*") "*"

/-- `filterToolsByMandate(allTools, mandate)` — the `allTools` record is
embedded as an association list of key/tool entries. -/
def filterToolsByMandate (allTools : List (String × JsTool)) (mandate : Mandate) :
    List (String × JsTool) :=
  let allowedIds := mandate.capabilities.tools
  let prohibitedExact := mandate.prohibitions.tools.filter (fun t => !hasWildcard t)
  let prohibitedStems := (mandate.prohibitions.tools.filter hasWildcard).map stripWildcard
  allTools.filter fun kt =>
    let toolId := toolIdOf kt.1 kt.2
    allowedIds.contains toolId &&
    !prohibitedExact.contains toolId &&
    !prohibitedStems.any (fun p => strStartsWith toolId p)

/-! ## Mandate composition (src/mandate/composer.ts)

`composeMandates` is pure except for the `created` metadata field, which reads
the current date; the embedding takes that date as the explicit `today`
argument. A thrown `Error` becomes `Except.error`. -/

/-- Union of disclaimers deduplicated by their `text` field, keeping the first
occurrence (the `seenDisclaimers` set in the source). -/
def dedupDisclaimersAux (seen : List String) : List DisclaimerRule → List DisclaimerRule
  | [] => []
  | d :: ds =>
    if d.text ∈ seen then dedupDisclaimersAux seen ds
    else d :: dedupDisclaimersAux (d.text :: seen) ds

/-- `Math.min(...)` over a nonempty argument list, head given separately. -/
def jsMathMin (x : Nat) (xs : List Nat) : Nat := xs.foldl Nat.min x

/-- `Math.max(...)` over a nonempty argument list, head given separately. -/
def jsMathMax (x : Nat) (xs : List Nat) : Nat := xs.foldl Nat.max x

/-- `composeMandates(mandates)`. -/
def composeMandates (today : String) (mandates : List Mandate) : Except String Mandate :=
  match mandates with
  | [] => .error "Cannot compose zero mandates"
  | [m] => .ok m
  | base :: rest =>
    let all := base :: rest
    let intersectedTools := (jsDedup base.capabilities.tools).filter
      (fun tool => all.all (fun m => m.capabilities.tools.contains tool))
    let allProhibitedTools := jsDedup (all.flatMap (fun m => m.prohibitions.tools))
    let allProhibitedActions := jsDedup (all.flatMap (fun m => m.prohibitions.actions))
    let allProhibitedData := jsDedup (all.flatMap (fun m => m.prohibitions.data))
    let intersectedScopes := (jsDedup base.scope.allowed).filter
      (fun scope => all.all (fun m => m.scope.allowed.contains scope))
    let composedLimits : MandateLimits := {
      max_tokens_per_turn := jsMathMin base.limits.max_tokens_per_turn
        (rest.map (fun m => m.limits.max_tokens_per_turn))
      max_tool_calls_per_turn := jsMathMin base.limits.max_tool_calls_per_turn
        (rest.map (fun m => m.limits.max_tool_calls_per_turn))
      max_turns_per_session := jsMathMin base.limits.max_turns_per_session
        (rest.map (fun m => m.limits.max_turns_per_session))
      max_concurrent_sessions := jsMathMin base.limits.max_concurrent_sessions
        (rest.map (fun m => m.limits.max_concurrent_sessions))
      token_budget_daily := jsMathMin base.limits.token_budget_daily
        (rest.map (fun m => m.limits.token_budget_daily))
      timeout_seconds := jsMathMin base.limits.timeout_seconds
        (rest.map (fun m => m.limits.timeout_seconds)) }
    let allDisclaimers := dedupDisclaimersAux []
      (all.flatMap (fun m => m.requirements.disclaimers))
    let allTriggers := all.flatMap (fun m => m.escalation.triggers)
    .ok {
      version := base.version
      metadata := {
        name := "composed-" ++ String.intercalate "-" (all.map (fun m => m.metadata.name))
        description := "Composed mandate from: " ++
          String.intercalate ", " (all.map (fun m => m.metadata.name))
        author := "system"
        created := today
        tags := jsDedup (all.flatMap (fun m => m.metadata.tags))
        skill_packs := some (jsDedup (all.flatMap (fun m => m.metadata.skill_packs.getD []))) }
      capabilities := {
        tools := intersectedTools
        data_access := base.capabilities.data_access
        output_types := jsDedup (all.flatMap (fun m => m.capabilities.output_types)) }
      prohibitions := {
        tools := allProhibitedTools
        actions := allProhibitedActions
        data := allProhibitedData }
      requirements := {
        disclaimers := allDisclaimers
        citations := base.requirements.citations
        human_review := base.requirements.human_review
        audit := {
          log_level := .full
          include_llm_calls := true
          include_tool_calls := true
          retention_days := jsMathMax base.requirements.audit.retention_days
            (rest.map (fun m => m.requirements.audit.retention_days)) } }
      scope := {
        allowed := intersectedScopes
        behavior_on_unsupported := .escalate
        escalation_message := base.scope.escalation_message }
      escalation := { triggers := allTriggers }
      limits := composedLimits }

/-! ## Processor interface (src/skills/types.ts)

Messages carry a `role` and their textual `content` (the processors only ever
read string contents; the `JSON.stringify` fallback for structured contents is
outside the embedded behavior). A stage outcome is either the returned message
list or an abort with reason and retry flag. -/

/-- A chat message as seen by the processors. -/
structure Message where
  role : String
  content : String
deriving DecidableEq, Repr

/-- Outcome of one processor hook: `ok` returns the (possibly rewritten)
messages; `abort reason retry` is the `abort(reason, {retry})` callback, with
`retry = false` when the options carry no `retry: true` (a hard abort). -/
inductive ProcResult where
  | ok (messages : List Message)
  | abort (reason : String) (retry : Bool)
deriving DecidableEq, Repr

/-- JS `Array.prototype.findLast`. -/
def findLastMsg (p : Message → Bool) (l : List Message) : Option Message :=
  l.reverse.find? p

/-- JS `Array.prototype.findLastIndex`, as an `Option` (the embedded call sites
only use a found index). -/
def findLastIdx (p : Message → Bool) (l : List Message) : Option Nat :=
  (l.reverse.findIdx? p).map (fun i => l.length - 1 - i)

/-- `updated[idx] = { ...messages[idx], content }`. -/
def setContentAt (l : List Message) (i : Nat) (content : String) : List Message :=
  match l.get? i with
  | some m => l.set i { m with content := content }
  | none => l

/-- JS `String.prototype.substring(0, n)`. -/
def jsSubstrTo (s : String) (n : Nat) : String := ⟨s.data.take n⟩

/-! ## Escalation processor (src/mandate/processors/escalation.processor.ts)

The registered keyword expansions (merged `Object.assign` result) are taken as
a lookup function `exps`. -/

/-- JS `Map.prototype.set`: update an existing key in place (keeping its
insertion position) or append a new entry. -/
def mapSet {α : Type} (m : List (String × α)) (k : String) (v : α) : List (String × α) :=
  match m with
  | [] => [(k, v)]
  | (k', v') :: t => if k' = k then (k, v) :: t else (k', v') :: mapSet t k v

/-- JS `Map.prototype.has`. -/
def mapHas {α : Type} (m : List (String × α)) (k : String) : Bool :=
  m.any (fun e => e.1 = k)

/-- JS `Map.prototype.get`. -/
def mapGet? {α : Type} (m : List (String × α)) (k : String) : Option α :=
  (m.find? (fun e => e.1 = k)).map (fun e => e.2)

/-- JS `Map.prototype.delete`. -/
def mapDelete {α : Type} (m : List (String × α)) (k : String) : List (String × α) :=
  m.filter (fun e => e.1 ≠ k)

/-- `topic.replace(/_/g, " ")`. -/
def underscoreToSpace (s : String) : String :=
  strMapChars (fun c => if c = '_' then ' ' else c) s

/-- `allExpansions[topic] || [topic.replace(/_/g, " ")]` — a registered (even
empty) expansion list is truthy and used as is. -/
def expandTopic (exps : String → Option (List String)) (topic : String) : List String :=
  match exps topic with
  | some l => l
  | none => [underscoreToSpace topic]

/-- The `topicKeywords` map: for each topic trigger that has a `topics` list,
set the entry keyed by `condition + "-" + topics.join(",")` to its expanded
keyword list and the trigger. -/
def buildTopicKeywords (exps : String → Option (List String))
    (topicTriggers : List EscalationTrigger) :
    List (String × (List String × EscalationTrigger)) :=
  topicTriggers.foldl (fun acc trigger =>
    match trigger.topics with
    | none => acc
    | some topics =>
      mapSet acc (trigger.condition ++ "-" ++ String.intercalate "," topics)
        (topics.flatMap (expandTopic exps), trigger)) []

/-- The apostrophe character (U+0027), kept out of string literals. -/
def apos : String := (Char.ofNat 39).toString

/-- The universal distress-detection keyword list. -/
def distressKeywords : List String :=
  ["desperate", "no way out", "can" ++ apos ++ "t take it",
   "losing everything", "threat", "threatened", "scared for my life",
   "help me please", "don" ++ apos ++ "t know what to do", "emergency"]

/-- `trigger.message`, with `"\n\n" + trigger.resources.join("\n")` appended
when a resources list is present. -/
def escMessageWithResources (trigger : EscalationTrigger) : String :=
  match trigger.resources with
  | some rs => trigger.message ++ "\n\n" ++ String.intercalate "\n" rs
  | none => trigger.message

/-- The distress check that runs when the topic loop ends without aborting. -/
def escalationDistress (distressTrigger : Option EscalationTrigger)
    (lowerText : String) (messages : List Message) : ProcResult :=
  match distressTrigger with
  | some trigger =>
    if distressKeywords.any (fun kw => strIncludes lowerText kw) then
      .abort (escMessageWithResources trigger) false
    else .ok messages
  | none => .ok messages

/-- `processInput` of the escalation processor. The `for ... of topicKeywords`
loop stops at the first entry whose keyword list matches the lowercased last
user message: a matching refusal trigger aborts, any other match just breaks;
in both no-abort cases the distress check still runs. -/
def escalationProcessInput (mandate : Mandate) (exps : String → Option (List String))
    (messages : List Message) : ProcResult :=
  let topicTriggers := mandate.escalation.triggers.filter
    (fun t => t.condition = "topic_match")
  let distressTrigger := mandate.escalation.triggers.find?
    (fun t => t.condition = "user_distress_detected")
  let topicKeywords := buildTopicKeywords exps topicTriggers
  match findLastMsg (fun m => m.role = "user") messages with
  | none => .ok messages
  | some lastUserMsg =>
    let lowerText := strToLower lastUserMsg.content
    match topicKeywords.find?
        (fun e => e.2.1.any (fun kw => strIncludes lowerText kw)) with
    | some e =>
      let trigger := e.2.2
      if trigger.action = .refuse_and_redirect || trigger.action = .refuse then
        .abort (escMessageWithResources trigger) false
      else
        escalationDistress distressTrigger lowerText messages
    | none => escalationDistress distressTrigger lowerText messages

/-! ## Limits processor (src/mandate/processors/limits.processor.ts)

The module-level mutable state (`activeSessions`, `dailyTokensUsed`,
`lastResetDate`) is embedded as an explicit `LimitsState` threaded through the
hooks; wall-clock reads become the explicit `now` (milliseconds) and `today`
(date string) arguments. The JS elapsed-time test
`(now - startedAt) / 1000 > timeout_seconds` is exact float arithmetic on
integers, so it is embedded as `now - startedAt > timeout_seconds * 1000`. -/

/-- One `activeSessions` entry. -/
structure SessionInfo where
  turns : Nat
  startedAt : Nat
deriving DecidableEq, Repr

/-- The module-level state of the limits processor. -/
structure LimitsState where
  activeSessions : List (String × SessionInfo)
  dailyTokensUsed : Nat
  lastResetDate : String
deriving DecidableEq, Repr

/-- `resetDailyIfNeeded()`. -/
def resetDailyIfNeeded (today : String) (st : LimitsState) : LimitsState :=
  if today ≠ st.lastResetDate then
    { st with dailyTokensUsed := 0, lastResetDate := today }
  else st

/-- `Session limit reached (N turns). Please start a new conversation.` -/
def sessionLimitMessage (n : Nat) : String :=
  "Session limit reached (" ++ toString n ++ " turns). " ++
  "Please start a new conversation."

/-- `processInput` of the limits processor. `sessionIdIn` is the
`state.__sessionId` slot (`|| "default"`). Returns the updated module state
together with the hook outcome. -/
def limitsProcessInput (limits : MandateLimits) (sessionIdIn : Option String)
    (now : Nat) (today : String) (messages : List Message) (st0 : LimitsState) :
    LimitsState × ProcResult :=
  let st := resetDailyIfNeeded today st0
  let sessionId := jsOrStr sessionIdIn "default"
  if !mapHas st.activeSessions sessionId &&
      decide (st.activeSessions.length ≥ limits.max_concurrent_sessions) then
    (st, .abort "Maximum concurrent sessions reached. Please try again later." false)
  else
    let st := if mapHas st.activeSessions sessionId then st
      else { st with activeSessions := (mapSet st.activeSessions sessionId
        { turns := 0, startedAt := now }) }
    match mapGet? st.activeSessions sessionId with
    | none => (st, .ok messages)
    | some session =>
      let turns := session.turns + 1
      let st := { st with activeSessions := (mapSet st.activeSessions sessionId
        { session with turns := turns }) }
      if turns > limits.max_turns_per_session then
        ({ st with activeSessions := mapDelete st.activeSessions sessionId },
         .abort (sessionLimitMessage limits.max_turns_per_session) false)
      else if now - session.startedAt > limits.timeout_seconds * 1000 then
        ({ st with activeSessions := mapDelete st.activeSessions sessionId },
         .abort "Session has timed out. Please start a new conversation." false)
      else if limits.token_budget_daily ≠ 0 &&
          st.dailyTokensUsed ≥ limits.token_budget_daily then
        (st, .abort "Daily token budget has been exhausted. Service will resume tomorrow." false)
      else
        (st, .ok messages)

/-- The fixed truncation marker appended to an over-long response. -/
def truncationMarker : String :=
  "\n\n---\n_[Response truncated — exceeded maximum length for this mandate]_"

/-- `processOutputResult` of the limits processor: estimate the last assistant
message at 4 characters per token, truncate past the per-turn cap (without
aborting), otherwise accumulate into the daily counter. -/
def limitsProcessOutputResult (limits : MandateLimits) (today : String)
    (messages : List Message) (st0 : LimitsState) : LimitsState × ProcResult :=
  let st := resetDailyIfNeeded today st0
  match findLastMsg (fun m => m.role = "assistant") messages with
  | none => (st, .ok messages)
  | some lastAssistantMsg =>
    let text := lastAssistantMsg.content
    let estimatedTokens := (text.length + 3) / 4
    if estimatedTokens > limits.max_tokens_per_turn then
      let maxChars := limits.max_tokens_per_turn * 4
      let truncated := jsSubstrTo text maxChars ++ truncationMarker
      let updated := match findLastIdx (fun m => m.role = "assistant") messages with
        | some idx => setContentAt messages idx truncated
        | none => messages
      (st, .ok updated)
    else
      ({ st with dailyTokensUsed := st.dailyTokensUsed + estimatedTokens },
       .ok messages)

/-! ## Citation processor (src/mandate/processors/citation.processor.ts)

The citation-evidence regexes and the blocked-source regexes are embedded as
explicit matchers over character lists. Each regex here is deterministic in
the sense that greedy matching never needs backtracking (every repetition is
followed by a character class disjoint from the repeated one), except for the
explicitly tried alternatives (`s?`, `\[?`, `https?`). -/

/-- Regex `\bAct\s+\d{4}\b` tried at one position. -/
def matchAct (prev : Option Char) (cs : List Char) : Bool :=
  boundaryBefore prev &&
  ((((matchLit "Act".data cs).bind skipWsOne).bind (takeDigitsExact 4)).map
    boundaryAfter).getD false

/-- Regex `\bs\.\d+` tried at one position. -/
def matchSDot (prev : Option Char) (cs : List Char) : Bool :=
  boundaryBefore prev && ((matchLit "s.".data cs).bind takeDigitsOne).isSome

/-- The `\.\s*\d+` tail of `\bss?\.\s*\d+`. -/
def dotWsDigits (cs : List Char) : Bool :=
  match cs with
  | '.' :: t => (takeDigitsOne (skipWsAll t)).isSome
  | _ => false

/-- Regex `\bss?\.\s*\d+` tried at one position (both choices of the optional
second `s` are tried). -/
def matchSsDot (prev : Option Char) (cs : List Char) : Bool :=
  boundaryBefore prev &&
  (match cs with
   | 's' :: rest =>
     (match rest with
      | 's' :: r2 => dotWsDigits r2
      | _ => false) || dotWsDigits rest
   | _ => false)

/-- Regex `\bSection\s+\d+` with `/i`, tried at one position. -/
def matchSectionWord (prev : Option Char) (cs : List Char) : Bool :=
  boundaryBefore prev &&
  (((matchLitCI "Section".data cs).bind skipWsOne).bind takeDigitsOne).isSome

/-- The `(?:\s+[A-Za-z]+)*\s+\d+` tail of the case-citation regex: repeated
whitespace-separated alphabetic words ending in a whitespace-separated number
(fuelled recursion; each step strictly consumes input). -/
def caseCiteWords : Nat → List Char → Bool
  | 0, _ => false
  | fuel + 1, cs =>
    match skipWsOne cs with
    | none => false
    | some r =>
      match r with
      | c :: t =>
        if c.isDigit then true
        else if c.isAlpha then caseCiteWords fuel (t.dropWhile Char.isAlpha)
        else false
      | [] => false

/-- The `\]?\s+[A-Z][A-Za-z]+...` part of the case-citation regex, after the
four digits. -/
def caseCiteAfterDigits (fuel : Nat) (cs0 : List Char) : Bool :=
  let cs := match cs0 with
    | ']' :: t => t
    | _ => cs0
  match skipWsOne cs with
  | none => false
  | some r =>
    match r with
    | c :: t =>
      if c.isUpper then
        match t with
        | d :: t2 => d.isAlpha && caseCiteWords fuel (t2.dropWhile Char.isAlpha)
        | [] => false
      else false
    | [] => false

/-- The `\d{4}\]?...` part of the case-citation regex. -/
def caseCiteFromDigits (fuel : Nat) (cs : List Char) : Bool :=
  match takeDigitsExact 4 cs with
  | some r => caseCiteAfterDigits fuel r
  | none => false

/-- Regex `\[?\d{4}\]?\s+[A-Z][A-Za-z]+(?:\s+[A-Za-z]+)*\s+\d+` tried at one
position (both choices of the optional opening bracket are tried). -/
def matchCaseCite (_prev : Option Char) (cs : List Char) : Bool :=
  (match cs with
   | '[' :: t => caseCiteFromDigits cs.length t
   | _ => false) || caseCiteFromDigits cs.length cs

/-- Regex `v\.\s+` tried at one position. -/
def matchVDot (_prev : Option Char) (cs : List Char) : Bool :=
  ((matchLit "v.".data cs).bind skipWsOne).isSome

/-- Regex `legislation\.gov\.uk` with `/i`, tried at one position. -/
def matchLegislationUrl (_prev : Option Char) (cs : List Char) : Bool :=
  (matchLitCI "legislation.gov.uk".data cs).isSome

/-- Regex `§\s*\d+` tried at one position. -/
def matchSectionMark (_prev : Option Char) (cs : List Char) : Bool :=
  match cs with
  | '§' :: t => (takeDigitsOne (skipWsAll t)).isSome
  | _ => false

/-- The `:\/\/[^\s]+` tail of the URL regex. -/
def urlTail (cs : List Char) : Bool :=
  match matchLit "://".data cs with
  | none => false
  | some r =>
    match r with
    | c :: _ => !isWsChar c
    | [] => false

/-- Regex `https?:\/\/[^\s]+` tried at one position (both choices of the
optional `s` are tried). -/
def matchUrl (_prev : Option Char) (cs : List Char) : Bool :=
  match matchLit "http".data cs with
  | none => false
  | some r =>
    (match r with
     | 's' :: r2 => urlTail r2
     | _ => false) || urlTail r

/-- `pattern.test(text)`: search the whole text for a match position. -/
def testPat (m : Option Char → List Char → Bool) (text : String) : Bool :=
  searchP m none text.data

/-- `citationPatterns.some(p => p.test(text))`: the fixed family of
citation-evidence patterns. -/
def hasCitations (text : String) : Bool :=
  testPat matchAct text || testPat matchSDot text || testPat matchSsDot text ||
  testPat matchSectionWord text || testPat matchCaseCite text ||
  testPat matchVDot text || testPat matchLegislationUrl text ||
  testPat matchSectionMark text || testPat matchUrl text

/-- Case-insensitive substring (a regex of escaped literals with `/i`). -/
def strIncludesCI (hay needle : String) : Bool :=
  strIncludes (strToLower hay) (strToLower needle)

/-- `/\bword\b/i.test(text)`. -/
def containsWordCI (text word : String) : Bool :=
  searchP (fun prev cs =>
    boundaryBefore prev &&
    (match matchLitCI word.data cs with
     | some r => boundaryAfter r
     | none => false)) none text.data

/-- The generic blocked-source fallback
`new RegExp(source.replace(/_/g, "[\\s_]"), "i")` tried at one position:
each literal character matches case-insensitively and each underscore matches
whitespace or underscore. -/
def matchSourceFallback : List Char → List Char → Bool
  | [], _ => true
  | _ :: _, [] => false
  | p :: ps, c :: cs =>
    (if p = '_' then isWsChar c || c = '_' else c.toLower = p.toLower) &&
    matchSourceFallback ps cs

/-- `blockedPatterns`: does any pattern derived from `source` match `text`? -/
def blockedSourceMatch (source text : String) : Bool :=
  if source = "wikipedia" then
    strIncludesCI text "wikipedia.org" || containsWordCI text "wikipedia"
  else if source = "reddit" then
    strIncludesCI text "reddit.com" || containsWordCI text "reddit"
  else if source = "social_media" then
    strIncludesCI text "twitter.com" || strIncludesCI text "x.com" ||
    strIncludesCI text "facebook.com" || strIncludesCI text "instagram.com" ||
    strIncludesCI text "tiktok.com"
  else if source = "blogs" then
    containsWordCI text "blog" || strIncludesCI text "medium.com" ||
    strIncludesCI text "wordpress.com"
  else
    searchP (fun _ cs => matchSourceFallback source.data cs) none text.data

/-- The soft blocked-source abort reason. -/
def blockedSourceReason (source : String) (allowed : List String) : String :=
  "Response references \"" ++ source ++ "\" which is a blocked source. " ++
  "Use authoritative sources only: " ++ String.intercalate ", " allowed

/-- The hard blocked-source abort reason. -/
def blockedSourceHardReason : String :=
  "I" ++ apos ++ "m unable to provide a response using only authoritative sources for this query."

/-- The missing-citations abort reason. -/
def lacksCitationsReason : String :=
  "Response lacks citations. All substantive legal information must cite " ++
  "relevant legislation, case law, or authoritative sources."

/-- `processOutputResult` of the citation processor (`createCitationProcessor`
returns a no-op processor when citations are not required). -/
def citationProcessOutputResult (citations : CitationRequirements)
    (messages : List Message) (retryCount : Nat) : ProcResult :=
  if citations.required = false then .ok messages
  else
    match findLastMsg (fun m => m.role = "assistant") messages with
    | none => .ok messages
    | some lastAssistantMsg =>
      let text := lastAssistantMsg.content
      match citations.blocked_sources.find? (fun s => blockedSourceMatch s text) with
      | some source =>
        if retryCount < 2 then
          .abort (blockedSourceReason source citations.allowed_sources) true
        else
          .abort blockedSourceHardReason false
      | none =>
        if text.length > 200 then
          if !hasCitations text then
            if retryCount < 2 then .abort lacksCitationsReason true
            else .ok messages
          else .ok messages
        else .ok messages

/-! ## Tool gate (src/mandate/processors/tool-gate.processor.ts)

Tool-call arguments are JSON values; `JSON.stringify` is embedded by a plain
serializer (string escaping beyond quoting does not occur in the embedded
scenarios). -/

/-- A JSON argument value. -/
inductive JsVal where
  | str (s : String)
  | num (n : Int)
  | jsBool (b : Bool)
  | jsNull
  | arr (xs : List JsVal)
  | obj (fields : List (String × JsVal))

mutual

/-- `JSON.stringify`. -/
def jsonStringify : JsVal → String
  | .str s => "\"" ++ s ++ "\""
  | .num n => toString n
  | .jsBool b => if b then "true" else "false"
  | .jsNull => "null"
  | .arr xs => "[" ++ jsonStringifyArr xs ++ "]"
  | .obj fs => "\x7b" ++ jsonStringifyObj fs ++ "\x7d"
termination_by v => sizeOf v

/-- Comma-joined serialization of an array body. -/
def jsonStringifyArr : List JsVal → String
  | [] => ""
  | [x] => jsonStringify x
  | x :: y :: xs => jsonStringify x ++ "," ++ jsonStringifyArr (y :: xs)
termination_by xs => sizeOf xs

/-- Comma-joined serialization of an object body. -/
def jsonStringifyObj : List (String × JsVal) → String
  | [] => ""
  | [(k, v)] => "\"" ++ k ++ "\":" ++ jsonStringify v
  | (k, v) :: f :: fs =>
    "\"" ++ k ++ "\":" ++ jsonStringify v ++ "," ++ jsonStringifyObj (f :: fs)
termination_by fs => sizeOf fs

end

/-- A proposed tool call: the processors read `toolName`, its `name` fallback,
and the JSON `args`. -/
structure ToolCall where
  toolName : Option String
  name : Option String
  args : JsVal

/-- JS `a || b` on two optional strings (empty string is falsy). -/
def jsOrOpt (a b : Option String) : Option String :=
  match a with
  | some s => if s = "" then b else some s
  | none => b

/-- `${x}` string interpolation of a possibly-undefined string. -/
def showJsStrOpt (o : Option String) : String := o.getD "undefined"

/-- The `dataKeywords` table, with the `category.replace(/_/g, " ")`
fallback. -/
def dataKeywords (category : String) : List String :=
  if category = "financial_accounts" then
    ["bank_account", "credit_card", "routing_number", "account_number"]
  else if category = "medical_records" then
    ["medical", "diagnosis", "prescription", "health_record"]
  else if category = "national_insurance_numbers" then
    ["national insurance", "ni number", "nino"]
  else if category = "social_security_numbers" then
    ["social security", "ssn"]
  else if category = "credentials_and_passwords" then
    ["password", "api_key", "secret", "token", "credential"]
  else [underscoreToSpace category]

/-- The checks the tool gate runs on a single call, in source order; `some`
is the first abort (reason, retry flag). -/
def toolGateCheckCall (mandate : Mandate) (retryCount : Nat) (toolCall : ToolCall) :
    Option (String × Bool) :=
  let allowedTools := mandate.capabilities.tools
  let prohibitedExact := mandate.prohibitions.tools.filter (fun t => !hasWildcard t)
  let prohibitedStems := (mandate.prohibitions.tools.filter hasWildcard).map stripWildcard
  let toolNameO := jsOrOpt toolCall.toolName toolCall.name
  let inWhitelist := match toolNameO with
    | some n => allowedTools.contains n
    | none => false
  if !inWhitelist then
    if retryCount < 2 then
      some ("Tool \"" ++ showJsStrOpt toolNameO ++ "\" is not available. Only use: " ++
        String.intercalate ", " allowedTools, true)
    else
      some ("Unable to complete this request within my operating guidelines.", false)
  else
    let toolName := showJsStrOpt toolNameO
    if prohibitedExact.contains toolName then
      some ("Tool \"" ++ toolName ++ "\" is prohibited by my operating mandate.", true)
    else if prohibitedStems.any (fun p => strStartsWith toolName p) then
      some ("Tool \"" ++ toolName ++ "\" is prohibited by my operating mandate.", true)
    else
      let argsString := strToLower (jsonStringify toolCall.args)
      match mandate.prohibitions.data.find? (fun category =>
          (dataKeywords category).any (fun kw => strIncludes argsString (strToLower kw))) with
      | some category =>
        some ("I cannot access " ++ underscoreToSpace category ++ " data.", true)
      | none => none

/-- `processOutputStep` of the tool gate: batch-size check first, then the
per-call checks; the first abort ends the stage. -/
def toolGateProcessOutputStep (mandate : Mandate) (messages : List Message)
    (toolCalls : List ToolCall) (retryCount : Nat) : ProcResult :=
  if toolCalls.isEmpty then .ok messages
  else if toolCalls.length > mandate.limits.max_tool_calls_per_turn then
    .abort ("Too many tool calls. Maximum is " ++
      toString mandate.limits.max_tool_calls_per_turn ++ ".") true
  else
    match toolCalls.findSome? (toolGateCheckCall mandate retryCount) with
    | some (reason, retry) => .abort reason retry
    | none => .ok messages

/-- Modelled from the spec: the host runtime that drives a stage is not part
of this repository (the processors receive `abort` and `retryCount` from it).
Per the spec, `retry = true` means "send this reason back to the generator and
let it try again," capped by a policy-independent maximum retry count (2)
after which any further abort from that interaction becomes terminal.
`stage k` is the stage outcome at retry count `k`; the driver retries soft
aborts while the budget lasts and hardens any abort once it is spent. -/
def driveAux (stage : Nat → ProcResult) : Nat → Nat → ProcResult
  | 0, k =>
    match stage k with
    | .ok ms => .ok ms
    | .abort r _ => .abort r false
  | n + 1, k =>
    match stage k with
    | .ok ms => .ok ms
    | .abort r rt => if rt then driveAux stage n (k + 1) else .abort r false

/-- Modelled from the spec: run a stage under the fixed retry budget of 2. -/
def driveWithRetryBudget (stage : Nat → ProcResult) : ProcResult :=
  driveAux stage 2 0

/-! ## Data access (src/mandate/processors/data-access.processor.ts) -/

mutual

/-- `extractStrings`: recursively collect every string value. -/
def extractStrings : JsVal → List String
  | .str s => [s]
  | .arr xs => extractStringsList xs
  | .obj fs => extractStringsObj fs
  | _ => []
termination_by v => sizeOf v

/-- `extractStrings` flat-mapped over an array. -/
def extractStringsList : List JsVal → List String
  | [] => []
  | x :: xs => extractStrings x ++ extractStringsList xs
termination_by xs => sizeOf xs

/-- `extractStrings` flat-mapped over the values of an object. -/
def extractStringsObj : List (String × JsVal) → List String
  | [] => []
  | (_, v) :: fs => extractStrings v ++ extractStringsObj fs
termination_by fs => sizeOf fs

end

/-- The `allowedExtensions` set: the union of lowercased `file_types` across
the data-access rules (insertion order, first occurrence kept). -/
def allowedExtensionsOf (rules : List DataAccessRule) : List String :=
  jsDedup (rules.flatMap (fun r => (r.file_types.getD []).map strToLower))

/-- `anyWriteAllowed`: some rule grants the `write` permission. -/
def anyWriteAllowed (rules : List DataAccessRule) : Bool :=
  rules.any (fun r => r.permissions.contains .write)

/-- `^\.[a-z]+$` with `/i` on an already-lowercased extension. -/
def extShape (ext : String) : Bool :=
  match ext.data with
  | '.' :: rest => !rest.isEmpty && rest.all Char.isAlpha
  | _ => false

/-- The extension the processor checks for a string value, when the value
looks like a filename: the last dot must be internal
(`dotIndex > 0 && dotIndex < value.length - 1`), and the lowercased tail from
that dot must be 2–6 characters shaped like `^\.[a-z]+$`. -/
def fileExtOf (value : String) : Option String :=
  let cs := value.data
  let dotIndex := lastIndexOfChar cs '.'
  if 0 < dotIndex ∧ dotIndex < (cs.length : Int) - 1 then
    let ext := strToLower (String.mk (cs.drop dotIndex.toNat))
    if 2 ≤ ext.length ∧ ext.length ≤ 6 ∧ extShape ext then some ext else none
  else none

/-- `write`-indicating argument vocabulary (each regex `/\bword\b/i`). -/
def writeArgWords : List String :=
  ["write", "save", "create", "delete", "update", "modify", "append", "overwrite"]

/-- `write`-indicating tool-name vocabulary (regex alternation, substring). -/
def writeToolWords : List String :=
  ["write", "save", "create", "delete", "upload", "send"]

/-- The write-block abort reason. -/
def writeBlockReason : String :=
  "Write operations are not permitted under the current mandate. " ++
  "All data access is read-only."

/-- The file-extension check on one extracted string value. -/
def extValueCheck (allowedExtensions : List String) (value : String) :
    Option (String × Bool) :=
  match fileExtOf value with
  | some ext =>
    if allowedExtensions.contains ext then none
    else some ("File type \"" ++ ext ++ "\" is not permitted. Allowed types: " ++
      String.intercalate ", " allowedExtensions, true)
  | none => none

/-- The data-access checks on a single call: file-extension check (only when
some rule lists file types), then the write-operation check (only when no rule
grants write). -/
def dataAccessCheckCall (rules : List DataAccessRule) (toolCall : ToolCall) :
    Option (String × Bool) :=
  let allowedExtensions := allowedExtensionsOf rules
  let c1 :=
    if allowedExtensions.isEmpty then none
    else (extractStrings toolCall.args).findSome? (extValueCheck allowedExtensions)
  match c1 with
  | some r => some r
  | none =>
    if anyWriteAllowed rules then none
    else
      let argsLower := strToLower (jsonStringify toolCall.args)
      let isWriteOperation := writeArgWords.any (fun w => containsWordCI argsLower w)
      let toolName := (jsOrOpt toolCall.toolName toolCall.name).getD ""
      let isWriteTool := writeToolWords.any (fun w => strIncludesCI toolName w)
      if isWriteOperation || isWriteTool then some (writeBlockReason, true) else none

/-- `processOutputStep` of the data-access processor. -/
def dataAccessProcessOutputStep (rules : List DataAccessRule)
    (messages : List Message) (toolCalls : List ToolCall) : ProcResult :=
  if toolCalls.isEmpty then .ok messages
  else
    match toolCalls.findSome? (dataAccessCheckCall rules) with
    | some (reason, retry) => .abort reason retry
    | none => .ok messages

/-! ## Concrete sample values

A baseline mandate and small variations of it, used to instantiate the
theorems below at concrete inputs. -/

/-- A baseline mandate with schema-conformant limit values. -/
def sampleMandate : Mandate := {
  version := "1.0"
  metadata := {
    name := "m1"
    description := "sample"
    author := "a"
    created := "2026-01-01"
    tags := []
    skill_packs := none }
  capabilities := {
    tools := ["a-tool", "b-tool"]
    data_access := []
    output_types := [] }
  prohibitions := { tools := [], actions := [], data := [] }
  requirements := {
    disclaimers := []
    citations := {
      required := false
      format := .inline
      min_per_claim := 0
      allowed_sources := []
      blocked_sources := [] }
    human_review := { required_before := [], review_prompt := "" }
    audit := {
      log_level := .full
      include_llm_calls := true
      include_tool_calls := true
      retention_days := 30 } }
  scope := {
    allowed := ["deposit_protection"]
    behavior_on_unsupported := .escalate
    escalation_message := "esc" }
  escalation := { triggers := [] }
  limits := {
    max_tokens_per_turn := 100
    max_tool_calls_per_turn := 3
    max_turns_per_session := 2
    max_concurrent_sessions := 5
    token_budget_daily := 1000
    timeout_seconds := 600 } }

/-- A second mandate differing in tools, limits and name. -/
def sampleMandateB : Mandate := { sampleMandate with
  metadata := { sampleMandate.metadata with name := "m2" }
  capabilities := { sampleMandate.capabilities with tools := ["b-tool", "c-tool"] }
  limits := {
    max_tokens_per_turn := 50
    max_tool_calls_per_turn := 9
    max_turns_per_session := 7
    max_concurrent_sessions := 2
    token_budget_daily := 2000
    timeout_seconds := 60 } }

/-- Sample tool set: one tool with an explicit id, two falling back to their
record keys. -/
def sampleTools : List (String × JsTool) :=
  [("k1", { id := some "a-tool" }), ("k2", { id := none }), ("b-tool", { id := none })]

/-- The baseline mandate with a wildcard prohibition on `b-*`. -/
def sampleFilterMandate : Mandate := { sampleMandate with
  prohibitions := { tools := ["b-*"], actions := [], data := [] } }

/-- A topic trigger whose action does not refuse. -/
def warnTrigger : EscalationTrigger := {
  condition := "topic_match"
  threshold := none
  topics := some ["alpha"]
  action := .warn_user
  message := "warn-msg"
  resources := none }

/-- A topic trigger that refuses, with resources. -/
def refuseTrigger : EscalationTrigger := {
  condition := "topic_match"
  threshold := none
  topics := some ["beta"]
  action := .refuse
  message := "refuse-msg"
  resources := some ["res1"] }

/-- Mandate whose trigger list places a matching non-refusing trigger before a
matching refusing one. -/
def escCexMandate : Mandate := { sampleMandate with
  escalation := { triggers := [warnTrigger, refuseTrigger] } }

/-- Mandate with only the refusing topic trigger. -/
def escRefuseMandate : Mandate := { sampleMandate with
  escalation := { triggers := [refuseTrigger] } }

/-- No keyword expansions registered. -/
def escNoExps : String → Option (List String) := fun _ => none

/-- A user turn mentioning both sample topics. -/
def escCexMessages : List Message := [{ role := "user", content := "alpha beta" }]

/-- A user turn mentioning only the refused topic. -/
def escBetaMessages : List Message := [{ role := "user", content := "beta only" }]

/-- Citation requirements with citations required and nothing blocked. -/
def sampleCitations : CitationRequirements := {
  required := true
  format := .inline
  min_per_claim := 1
  allowed_sources := ["uk_primary_legislation"]
  blocked_sources := [] }

/-- A long response with no citation pattern. -/
def longNoCiteText : String := String.mk (List.replicate 240 'x')

/-- A long response citing the Housing Act. -/
def longCiteText : String :=
  "Your landlord must protect your deposit under the Housing Act 2004, s.213 " ++
  "within 30 days of receiving it, otherwise you can claim compensation of up " ++
  "to three times the deposit amount through the county court process as the " ++
  "legislation sets out."

/-- A data-access rule set that grants write but lists no file types. -/
def daCexRules : List DataAccessRule :=
  [{ scope := "uploads", permissions := [.read, .write], file_types := none, databases := none }]

/-- A read-only data-access rule set allowing only `.pdf`. -/
def daPdfRules : List DataAccessRule :=
  [{ scope := "uploads", permissions := [.read], file_types := some [".pdf"], databases := none }]

/-- A tool call whose arguments carry an `.exe` filename. -/
def daExeCall : ToolCall :=
  { toolName := some "doc-reader", name := none, args := .obj [("file", .str "malware.exe")] }

/-- A benign tool call (no write vocabulary, allowed extension). -/
def daPdfCall : ToolCall :=
  { toolName := some "doc-reader", name := none, args := .obj [("file", .str "notes.pdf")] }

/-- A whitelisted tool call with empty arguments. -/
def gateOkCall : ToolCall := { toolName := some "a-tool", name := none, args := .jsNull }

/-- The property of being the minimum of a list of naturals. -/
def isMinOf (v : Nat) (l : List Nat) : Prop := v ∈ l ∧ ∀ x ∈ l, v ≤ x

/-- Four copies of the benign whitelisted call (one more than the sample
per-turn cap). -/
def fourCalls : List ToolCall := [gateOkCall, gateOkCall, gateOkCall, gateOkCall]

/-! ## Helper lemmas -/

/-- `Math.min` over a nonempty list is its minimum. -/
theorem jsMathMin_isMin (xs : List Nat) : ∀ x : Nat, isMinOf (jsMathMin x xs) (x :: xs) := by
  induction xs with
  | nil =>
    intro x
    refine ⟨List.mem_singleton_self x, ?_⟩
    intro y hy
    rw [List.mem_singleton] at hy
    subst hy
    exact Nat.le_refl _
  | cons a xs ih =>
    intro x
    obtain ⟨hmem, hle⟩ := ih (Nat.min x a)
    have hdef : jsMathMin x (a :: xs) = jsMathMin (Nat.min x a) xs := rfl
    constructor
    · rw [hdef]
      rcases List.mem_cons.mp hmem with h1 | h2
      · rw [h1]
        rcases Nat.le_total x a with h | h
        · simp [Nat.min_eq_left h]
        · simp [Nat.min_eq_right h]
      · simp [List.mem_cons]
        tauto
    · intro y hy
      rw [hdef]
      have hminx : Nat.min x a ≤ x := Nat.min_le_left x a
      have hmina : Nat.min x a ≤ a := Nat.min_le_right x a
      have hself : jsMathMin (Nat.min x a) xs ≤ Nat.min x a :=
        hle (Nat.min x a) (List.mem_cons_self _ _)
      rcases List.mem_cons.mp hy with rfl | hy2
      · omega
      rcases List.mem_cons.mp hy2 with rfl | hy3
      · omega
      · exact hle y (List.mem_cons_of_mem _ hy3)

/-- `lastOpt` distributes over append. -/
theorem lastOpt_append (u v : List Char) :
    ∀ prev, lastOpt prev (u ++ v) = lastOpt (lastOpt prev u) v := by
  induction u with
  | nil => intro prev; rfl
  | cons c u ih => intro prev; simpa [lastOpt] using ih (some c)

/-- If the pattern matches at the split point, the search over the whole text
succeeds. -/
theorem searchP_append (m : Option Char → List Char → Bool) (u : List Char) :
    ∀ (prev : Option Char) (suf : List Char), m (lastOpt prev u) suf = true →
    searchP m prev (u ++ suf) = true := by
  induction u with
  | nil =>
    intro prev suf h
    cases suf with
    | nil => simpa [searchP, lastOpt] using h
    | cons c cs =>
      have hh : m prev (c :: cs) = true := by simpa [lastOpt] using h
      simp [searchP, hh]
  | cons c u ih =>
    intro prev suf h
    have h2 := ih (some c) suf (by simpa [lastOpt] using h)
    have hdef : searchP m prev ((c :: u) ++ suf) =
        (m prev (c :: (u ++ suf)) || searchP m (some c) (u ++ suf)) := rfl
    rw [hdef, h2, Bool.or_true]

/-- A literal matches a text it literally starts. -/
theorem matchLit_self_append (lit rest : List Char) :
    matchLit lit (lit ++ rest) = some rest := by
  induction lit with
  | nil => rfl
  | cons c lit ih => simp [matchLit, ih]

/-- `find?` success yields a `findIdx?` index holding the found element. -/
theorem find?_exists_findIdx? (p : Message → Bool) :
    ∀ (l : List Message) (m : Message), l.find? p = some m →
    ∀ i, ∃ j, l.findIdx? p i = some (i + j) ∧ l.get? j = some m := by
  intro l
  induction l with
  | nil => intro m h i; simp [List.find?] at h
  | cons a l ih =>
    intro m h i
    by_cases hp : p a
    · rw [List.find?_cons_of_pos _ hp] at h
      obtain rfl : a = m := by injection h
      exact ⟨0, by simp [List.findIdx?_cons, hp], rfl⟩
    · rw [List.find?_cons_of_neg _ hp] at h
      obtain ⟨j, hj, hg⟩ := ih m h (i + 1)
      refine ⟨j + 1, ?_, by simpa using hg⟩
      rw [List.findIdx?_cons]
      simp only [hp, if_false, Bool.false_eq_true]
      rw [hj]
      congr 1
      omega

/-- `findLastMsg` success yields the index `findLastIdx` finds, holding the
found message. -/
theorem findLast_spec (p : Message → Bool) (l : List Message) (m : Message)
    (h : findLastMsg p l = some m) :
    ∃ i, findLastIdx p l = some i ∧ l.get? i = some m ∧ p m = true := by
  have hfind : l.reverse.find? p = some m := h
  obtain ⟨j, hj, hg⟩ := find?_exists_findIdx? p l.reverse m hfind 0
  rw [Nat.zero_add] at hj
  have hjlt : j < l.length := by
    have := List.get?_eq_some.mp hg
    obtain ⟨hlt, _⟩ := this
    simpa using hlt
  refine ⟨l.length - 1 - j, ?_, ?_, List.find?_some hfind⟩
  · simp [findLastIdx, hj]
  · rw [← List.get?_reverse hjlt]
    exact hg

/-! ## Claim theorems -/

/-- C9: `composeMandates` fails (throws) exactly when given zero policies, and
given exactly one policy it returns that very policy (the embedding returns
the head of the input list itself, mirroring `return mandates[0]`). -/
theorem C9_compose_error_iff_empty_and_identity (today : String) :
    (∀ ms : List Mandate, (∃ e, composeMandates today ms = .error e) ↔ ms = []) ∧
    (∀ m : Mandate, composeMandates today [m] = .ok m) := by
  constructor
  · intro ms
    constructor
    · rintro ⟨e, he⟩
      match ms with
      | [] => rfl
      | [m] => simp [composeMandates] at he
      | m :: r :: rs => simp [composeMandates] at he
    · rintro rfl
      exact ⟨"Cannot compose zero mandates", rfl⟩
  · intro m
    rfl

/-- C9 witness: concrete zero- and one-policy calls. -/
theorem C9_witness :
    (∃ e, composeMandates "2026-01-01" ([] : List Mandate) = .error e) ∧
    composeMandates "2026-01-01" [sampleMandate] = .ok sampleMandate :=
  ⟨((C9_compose_error_iff_empty_and_identity "2026-01-01").1 []).mpr rfl,
   (C9_compose_error_iff_empty_and_identity "2026-01-01").2 sampleMandate⟩

/-- C10: for two or more mandates, the composed policy carries the FIRST
mandate's data-access rules, citation requirements and human-review
configuration verbatim; the later mandates' corresponding fields do not occur
in the result (the right-hand sides below mention only `m`). -/
theorem C10_compose_base_fields (today : String) (m r : Mandate) (rs : List Mandate) :
    ∃ c, composeMandates today (m :: r :: rs) = .ok c ∧
      c.capabilities.data_access = m.capabilities.data_access ∧
      c.requirements.citations = m.requirements.citations ∧
      c.requirements.human_review = m.requirements.human_review :=
  ⟨_, rfl, rfl, rfl, rfl⟩

/-- C2: for every nonempty policy list, each composed numeric limit field is
exactly the minimum across the inputs, and the composed tool list is contained
in every input's tool list (hence in their intersection). -/
theorem C2_compose_limits_min_tools_subset (today : String) (m : Mandate)
    (rest : List Mandate) :
    ∃ c, composeMandates today (m :: rest) = .ok c ∧
      isMinOf c.limits.max_tokens_per_turn
        ((m :: rest).map (fun x => x.limits.max_tokens_per_turn)) ∧
      isMinOf c.limits.max_tool_calls_per_turn
        ((m :: rest).map (fun x => x.limits.max_tool_calls_per_turn)) ∧
      isMinOf c.limits.max_turns_per_session
        ((m :: rest).map (fun x => x.limits.max_turns_per_session)) ∧
      isMinOf c.limits.max_concurrent_sessions
        ((m :: rest).map (fun x => x.limits.max_concurrent_sessions)) ∧
      isMinOf c.limits.token_budget_daily
        ((m :: rest).map (fun x => x.limits.token_budget_daily)) ∧
      isMinOf c.limits.timeout_seconds
        ((m :: rest).map (fun x => x.limits.timeout_seconds)) ∧
      (∀ t ∈ c.capabilities.tools, ∀ md ∈ m :: rest, t ∈ md.capabilities.tools) := by
  cases rest with
  | nil =>
    refine ⟨m, rfl, ?_, ?_, ?_, ?_, ?_, ?_, ?_⟩
    case _ => simp [isMinOf]
    case _ => simp [isMinOf]
    case _ => simp [isMinOf]
    case _ => simp [isMinOf]
    case _ => simp [isMinOf]
    case _ => simp [isMinOf]
    intro t ht md hmd
    rw [List.mem_singleton] at hmd
    subst hmd
    exact ht
  | cons r rs =>
    refine ⟨_, rfl, ?_, ?_, ?_, ?_, ?_, ?_, ?_⟩
    case _ => exact jsMathMin_isMin _ _
    case _ => exact jsMathMin_isMin _ _
    case _ => exact jsMathMin_isMin _ _
    case _ => exact jsMathMin_isMin _ _
    case _ => exact jsMathMin_isMin _ _
    case _ => exact jsMathMin_isMin _ _
    intro t ht md hmd
    have hmem := List.mem_filter.mp ht
    have hall := List.all_eq_true.mp hmem.2 md hmd
    simpa using hall

/-- C2 witness: the composition of the two sample mandates. -/
theorem C2_witness :
    ∃ c, composeMandates "2026-01-01" (sampleMandate :: [sampleMandateB]) = .ok c ∧
      isMinOf c.limits.max_tokens_per_turn
        ((sampleMandate :: [sampleMandateB]).map (fun x => x.limits.max_tokens_per_turn)) ∧
      isMinOf c.limits.max_tool_calls_per_turn
        ((sampleMandate :: [sampleMandateB]).map (fun x => x.limits.max_tool_calls_per_turn)) ∧
      isMinOf c.limits.max_turns_per_session
        ((sampleMandate :: [sampleMandateB]).map (fun x => x.limits.max_turns_per_session)) ∧
      isMinOf c.limits.max_concurrent_sessions
        ((sampleMandate :: [sampleMandateB]).map (fun x => x.limits.max_concurrent_sessions)) ∧
      isMinOf c.limits.token_budget_daily
        ((sampleMandate :: [sampleMandateB]).map (fun x => x.limits.token_budget_daily)) ∧
      isMinOf c.limits.timeout_seconds
        ((sampleMandate :: [sampleMandateB]).map (fun x => x.limits.timeout_seconds)) ∧
      (∀ t ∈ c.capabilities.tools, ∀ md ∈ sampleMandate :: [sampleMandateB],
        t ∈ md.capabilities.tools) :=
  C2_compose_limits_min_tools_subset "2026-01-01" sampleMandate [sampleMandateB]

/-- C7: whenever a batch has more proposed tool calls than
`max_tool_calls_per_turn`, the tool gate rejects the whole batch with a soft
(retryable) abort; the spec-modelled host retry loop (budget 2) then turns the
persisting soft rejection into a hard, terminal abort. -/
theorem C7_tool_gate_batch_cap (mandate : Mandate) (messages : List Message)
    (toolCalls : List ToolCall) (retryCount : Nat)
    (h : toolCalls.length > mandate.limits.max_tool_calls_per_turn) :
    toolGateProcessOutputStep mandate messages toolCalls retryCount =
      .abort ("Too many tool calls. Maximum is " ++
        toString mandate.limits.max_tool_calls_per_turn ++ ".") true ∧
    driveWithRetryBudget (fun k => toolGateProcessOutputStep mandate messages toolCalls k) =
      .abort ("Too many tool calls. Maximum is " ++
        toString mandate.limits.max_tool_calls_per_turn ++ ".") false := by
  have hne : toolCalls.isEmpty = false := by
    cases toolCalls with
    | nil => simp at h
    | cons a t => rfl
  have hstage : ∀ k, toolGateProcessOutputStep mandate messages toolCalls k =
      .abort ("Too many tool calls. Maximum is " ++
        toString mandate.limits.max_tool_calls_per_turn ++ ".") true := by
    intro k
    unfold toolGateProcessOutputStep
    rw [hne]
    simp [h]
  refine ⟨hstage retryCount, ?_⟩
  simp [driveWithRetryBudget, driveAux, hstage]

/-- C7 witness: four calls against the sample cap of three. -/
theorem C7_witness :
    toolGateProcessOutputStep sampleMandate [] fourCalls 0 =
      .abort ("Too many tool calls. Maximum is " ++
        toString sampleMandate.limits.max_tool_calls_per_turn ++ ".") true ∧
    driveWithRetryBudget (fun k => toolGateProcessOutputStep sampleMandate [] fourCalls k) =
      .abort ("Too many tool calls. Maximum is " ++
        toString sampleMandate.limits.max_tool_calls_per_turn ++ ".") false :=
  C7_tool_gate_batch_cap sampleMandate [] fourCalls 0 (by decide)

/-- `List.contains` on strings decides membership. -/
theorem containsStr_iff (l : List String) (a : String) : l.contains a = true ↔ a ∈ l :=
  List.elem_iff

/-- `List.contains = false` on strings decides non-membership. -/
theorem containsStr_false_iff (l : List String) (a : String) :
    l.contains a = false ↔ a ∉ l := by
  rw [← containsStr_iff]
  cases l.contains a <;> simp

/-- `List.any = false` is a pointwise-false statement. -/
theorem anyStr_false_iff (l : List String) (p : String → Bool) :
    l.any p = false ↔ ∀ x ∈ l, p x = false := by
  cases h : l.any p
  · refine ⟨fun _ x hx => ?_, fun _ => rfl⟩
    cases hpx : p x
    · rfl
    · have hgot : l.any p = true := List.any_eq_true.mpr ⟨x, hx, hpx⟩
      rw [h] at hgot
      exact (Bool.false_ne_true hgot).elim
  · constructor
    · intro hh
      exact (Bool.false_ne_true hh.symm).elim
    · intro hall
      obtain ⟨x, hx, hpx⟩ := List.any_eq_true.mp h
      rw [hall x hx] at hpx
      exact (Bool.false_ne_true hpx).elim

/-- Entry-level membership characterisation of `filterToolsByMandate`. -/
theorem filterTools_mem_iff (allTools : List (String × JsTool)) (mandate : Mandate)
    (k : String) (t : JsTool) :
    (k, t) ∈ filterToolsByMandate allTools mandate ↔
      (k, t) ∈ allTools ∧
      toolIdOf k t ∈ mandate.capabilities.tools ∧
      (∀ p ∈ mandate.prohibitions.tools, hasWildcard p = false → toolIdOf k t ≠ p) ∧
      (∀ p ∈ mandate.prohibitions.tools, hasWildcard p = true →
        strStartsWith (toolIdOf k t) (stripWildcard p) = false) := by
  unfold filterToolsByMandate
  rw [List.mem_filter]
  constructor
  · rintro ⟨hin, hpred⟩
    rw [Bool.and_eq_true, Bool.and_eq_true] at hpred
    obtain ⟨⟨hA, hB⟩, hC⟩ := hpred
    rw [Bool.not_eq_true'] at hB hC
    refine ⟨hin, containsStr_iff _ _ |>.mp hA, ?_, ?_⟩
    · intro p hp hpw heq
      subst heq
      have hmem : toolIdOf k t ∈
          mandate.prohibitions.tools.filter (fun x => !hasWildcard x) :=
        List.mem_filter.mpr ⟨hp, by rw [hpw]; rfl⟩
      exact absurd hmem (containsStr_false_iff _ _ |>.mp hB)
    · intro p hp hpw
      have := anyStr_false_iff _ _ |>.mp hC
      exact this (stripWildcard p)
        (List.mem_map.mpr ⟨p, List.mem_filter.mpr ⟨hp, hpw⟩, rfl⟩)
  · rintro ⟨hin, hwl, hex, hwild⟩
    refine ⟨hin, ?_⟩
    rw [Bool.and_eq_true, Bool.and_eq_true]
    refine ⟨⟨containsStr_iff _ _ |>.mpr hwl, ?_⟩, ?_⟩
    · rw [Bool.not_eq_true']
      rw [containsStr_false_iff]
      intro hmem
      obtain ⟨hp, hnw⟩ := List.mem_filter.mp hmem
      rw [Bool.not_eq_true'] at hnw
      exact hex _ hp hnw rfl
    · rw [Bool.not_eq_true']
      rw [anyStr_false_iff]
      intro x hx
      obtain ⟨p, hpmem, rfl⟩ := List.mem_map.mp hx
      obtain ⟨hp, hw⟩ := List.mem_filter.mp hpmem
      exact hwild p hp hw

/-- C1: a tool identifier is in the resolved tool set iff it is whitelisted,
present in the source tool set, distinct from every exact (non-wildcard)
prohibition, and not prefix-matched by any wildcard prohibition with its
wildcard marker removed. -/
theorem C1_filterTools_id_iff (allTools : List (String × JsTool)) (mandate : Mandate)
    (tid : String) :
    (∃ k t, (k, t) ∈ filterToolsByMandate allTools mandate ∧ toolIdOf k t = tid) ↔
      (tid ∈ mandate.capabilities.tools ∧
       (∃ k t, (k, t) ∈ allTools ∧ toolIdOf k t = tid) ∧
       (∀ p ∈ mandate.prohibitions.tools, hasWildcard p = false → tid ≠ p) ∧
       (∀ p ∈ mandate.prohibitions.tools, hasWildcard p = true →
         strStartsWith tid (stripWildcard p) = false)) := by
  constructor
  · rintro ⟨k, t, hmem, rfl⟩
    obtain ⟨hin, hwl, hex, hwild⟩ := (filterTools_mem_iff allTools mandate k t).mp hmem
    exact ⟨hwl, ⟨k, t, hin, rfl⟩, hex, hwild⟩
  · rintro ⟨hwl, ⟨k, t, hin, rfl⟩, hex, hwild⟩
    exact ⟨k, t, (filterTools_mem_iff allTools mandate k t).mpr ⟨hin, hwl, hex, hwild⟩, rfl⟩

/-- C1 witness: in the sample tool set under the wildcard-prohibiting mandate,
`a-tool` resolves. -/
theorem C1_witness :
    ∃ k t, (k, t) ∈ filterToolsByMandate sampleTools sampleFilterMandate ∧
      toolIdOf k t = "a-tool" :=
  (C1_filterTools_id_iff sampleTools sampleFilterMandate "a-tool").mpr
    ⟨by decide, ⟨"k1", { id := some "a-tool" }, by decide, by decide⟩, by decide, by decide⟩

/-- C3 counterexample: in `escCexMandate` the refusing trigger matches the
last user message (its fallback keyword `beta` occurs in the lowercased text),
yet the stage does not abort, because the earlier non-refusing trigger also
matches and the loop stops at the first match. The claim, which requires the
abort to happen for EVERY matching refusal trigger, is therefore false. -/
theorem C3_counterexample :
    escalationProcessInput escCexMandate escNoExps escCexMessages = .ok escCexMessages ∧
    refuseTrigger ∈ escCexMandate.escalation.triggers ∧
    refuseTrigger.condition = "topic_match" ∧
    refuseTrigger.action = .refuse ∧
    (refuseTrigger.topics.getD []).any
      (fun topic => strIncludes (strToLower "alpha beta") (underscoreToSpace topic)) = true ∧
    escNoExps "beta" = none :=
  ⟨by decide, by decide, by decide, by decide, by decide, rfl⟩

/-- C3 (amended): only the FIRST entry of the precomputed topic-keyword map
whose keyword list matches the lowercased last user message is examined; when
that trigger's action is `refuse` or `refuse_and_redirect`, the stage
hard-aborts with that trigger's message with its resource list appended. -/
theorem C3_first_matching_refusal_aborts (mandate : Mandate)
    (exps : String → Option (List String)) (messages : List Message)
    (msg : Message) (entry : String × (List String × EscalationTrigger))
    (hlast : findLastMsg (fun m => m.role = "user") messages = some msg)
    (hfind : (buildTopicKeywords exps (mandate.escalation.triggers.filter
        (fun t => t.condition = "topic_match"))).find?
        (fun e => e.2.1.any (fun kw => strIncludes (strToLower msg.content) kw)) =
        some entry)
    (haction : entry.2.2.action = .refuse_and_redirect ∨ entry.2.2.action = .refuse) :
    escalationProcessInput mandate exps messages =
      .abort (escMessageWithResources entry.2.2) false := by
  unfold escalationProcessInput
  simp only [hlast, hfind]
  rcases haction with h | h <;> simp [h]

/-- C3 witness: with only the refusing trigger present, a matching message is
hard-aborted with the trigger message and resources. -/
theorem C3_witness :
    escalationProcessInput escRefuseMandate escNoExps escBetaMessages =
      .abort (escMessageWithResources refuseTrigger) false :=
  C3_first_matching_refusal_aborts escRefuseMandate escNoExps escBetaMessages
    { role := "user", content := "beta only" }
    ("topic_match-beta", (["beta"], refuseTrigger))
    (by decide) (by decide) (Or.inr (by decide))

/-- If some extracted value has a checked extension outside the allowed set,
the per-value scan yields a retryable abort. -/
theorem extValueCheck_findSome (allowed : List String) (values : List String)
    (h : ∃ v ∈ values, ∃ e, fileExtOf v = some e ∧ e ∉ allowed) :
    ∃ r, values.findSome? (extValueCheck allowed) = some (r, true) := by
  induction values with
  | nil => obtain ⟨v, hv, _⟩ := h; exact absurd hv (List.not_mem_nil v)
  | cons v vs ih =>
    cases hv : extValueCheck allowed v with
    | none =>
      obtain ⟨w, hw, e, he, hne⟩ := h
      rcases List.mem_cons.mp hw with rfl | hwtail
      · exfalso
        unfold extValueCheck at hv
        simp only [he] at hv
        by_cases hc : allowed.contains e = true
        · exact hne (containsStr_iff _ _ |>.mp hc)
        · rw [if_neg hc] at hv
          exact Option.some_ne_none _ hv
      · obtain ⟨r, hr⟩ := ih ⟨w, hwtail, e, he, hne⟩
        exact ⟨r, by rw [List.findSome?_cons, hv, hr]⟩
    | some val =>
      have hval : val.2 = true := by
        unfold extValueCheck at hv
        cases hfe : fileExtOf v with
        | none =>
          simp only [hfe] at hv
          exact Option.noConfusion hv
        | some e =>
          simp only [hfe] at hv
          by_cases hc : allowed.contains e = true
          · rw [if_pos hc] at hv; cases hv
          · rw [if_neg hc] at hv
            injection hv with h2
            rw [← h2]
      refine ⟨val.1, ?_⟩
      rw [List.findSome?_cons, hv]
      obtain ⟨v1, v2⟩ := val
      simp at hval
      rw [hval]

/-- C8 counterexample: with a data-access rule set whose `file_types` union is
EMPTY, a tool call carrying a filename-looking value with a checkable
extension is NOT rejected — the extension check is skipped when the union is
empty, contradicting the claim that every such value is then rejected. -/
theorem C8_counterexample :
    allowedExtensionsOf daCexRules = [] ∧
    fileExtOf "malware.exe" = some ".exe" ∧
    "malware.exe" ∈ extractStrings daExeCall.args ∧
    dataAccessProcessOutputStep daCexRules [] [daExeCall] = .ok [] := by
  refine ⟨rfl, by decide, ?_, by decide⟩
  have heq : extractStrings daExeCall.args = ["malware.exe"] := by
    simp [daExeCall, extractStrings, extractStringsObj, extractStringsList]
  rw [heq]
  exact List.mem_singleton_self _

/-- C8 (amended): when the union of `file_types` across the rules is
non-empty, a tool call whose arguments contain a string with a checked
extension outside the union is soft-aborted (retryable); when the union is
empty the extension check is skipped entirely (and with some rule granting
write, the call passes). -/
theorem C8_ext_check_needs_nonempty_union (rules : List DataAccessRule)
    (messages : List Message) (tc : ToolCall) :
    (allowedExtensionsOf rules ≠ [] →
      (∃ v ∈ extractStrings tc.args, ∃ e, fileExtOf v = some e ∧
        e ∉ allowedExtensionsOf rules) →
      ∃ r, dataAccessProcessOutputStep rules messages [tc] = .abort r true) ∧
    (allowedExtensionsOf rules = [] → anyWriteAllowed rules = true →
      dataAccessProcessOutputStep rules messages [tc] = .ok messages) := by
  constructor
  · intro hne hex
    obtain ⟨r, hr⟩ := extValueCheck_findSome (allowedExtensionsOf rules)
      (extractStrings tc.args) hex
    have hemp : (allowedExtensionsOf rules).isEmpty = false := by
      cases hh : allowedExtensionsOf rules with
      | nil => exact absurd hh hne
      | cons a t => rfl
    have hcall : dataAccessCheckCall rules tc = some (r, true) := by
      simp only [dataAccessCheckCall, hemp, Bool.false_eq_true, if_false, hr]
    refine ⟨r, ?_⟩
    simp [dataAccessProcessOutputStep, List.findSome?_cons, hcall]
  · intro hemp hwrite
    have hemp' : (allowedExtensionsOf rules).isEmpty = true := by rw [hemp]; rfl
    have hcall : dataAccessCheckCall rules tc = none := by
      simp only [dataAccessCheckCall, hemp', if_true, hwrite]
    simp [dataAccessProcessOutputStep, List.findSome?_cons, hcall]

/-- C8 witness: with `.pdf` allowed, the `.exe` call is soft-aborted; with an
empty union and write granted, the same call passes. -/
theorem C8_witness :
    (∃ r, dataAccessProcessOutputStep daPdfRules [] [daExeCall] = .abort r true) ∧
    dataAccessProcessOutputStep daCexRules [] [daExeCall] = .ok [] := by
  have heq : extractStrings daExeCall.args = ["malware.exe"] := by
    simp [daExeCall, extractStrings, extractStringsObj, extractStringsList]
  refine ⟨(C8_ext_check_needs_nonempty_union daPdfRules [] daExeCall).1 (by decide)
      ⟨"malware.exe", ?_, ".exe", by decide, by decide⟩,
    (C8_ext_check_needs_nonempty_union daCexRules [] daExeCall).2 rfl rfl⟩
  rw [heq]
  exact List.mem_singleton_self _

/-- A first turn on a fresh session: the session is created and counts one
turn; the turn passes. -/
theorem limitsInput_fresh_session (limits : MandateLimits) (sessionIdIn : Option String)
    (now : Nat) (today : String) (messages : List Message)
    (hconc : 0 < limits.max_concurrent_sessions)
    (hturn : 0 < limits.max_turns_per_session) :
    limitsProcessInput limits sessionIdIn now today messages
      { activeSessions := [], dailyTokensUsed := 0, lastResetDate := today } =
      ({ activeSessions := [(jsOrStr sessionIdIn "default",
          { turns := 1, startedAt := now })], dailyTokensUsed := 0, lastResetDate := today },
       .ok messages) := by
  simp only [limitsProcessInput, resetDailyIfNeeded, mapHas, mapSet, mapGet?, mapDelete]
  simp
  rw [if_neg (Nat.pos_iff_ne_zero.mp hconc)]
  simp [mapSet, List.find?]
  omega

/-- A turn on a session already counting `t` turns (started at the current
instant): it passes and counts `t + 1` turns, unless `t + 1` exceeds the cap,
in which case the session is evicted and the turn hard-aborts with the
session-limit message. -/
theorem limitsInput_existing_session (limits : MandateLimits) (sessionIdIn : Option String)
    (now : Nat) (today : String) (messages : List Message) (t : Nat) :
    limitsProcessInput limits sessionIdIn now today messages
      { activeSessions := [(jsOrStr sessionIdIn "default", { turns := t, startedAt := now })],
        dailyTokensUsed := 0, lastResetDate := today } =
      (if limits.max_turns_per_session < t + 1 then
        ({ activeSessions := [], dailyTokensUsed := 0, lastResetDate := today },
         .abort (sessionLimitMessage limits.max_turns_per_session) false)
       else
        ({ activeSessions := [(jsOrStr sessionIdIn "default",
            { turns := t + 1, startedAt := now })], dailyTokensUsed := 0, lastResetDate := today },
         .ok messages)) := by
  simp only [limitsProcessInput, resetDailyIfNeeded, mapHas, mapSet, mapGet?, mapDelete]
  simp [List.find?]
  by_cases hlt : limits.max_turns_per_session < t + 1
  · simp [hlt, mapSet]
  · simp [hlt, mapSet]

/-- C4: with `max_turns_per_session = 2`, three sequential turns on the same
session identifier pass, pass, then hard-abort with the session-limit
message, and the aborting turn removes the session entry from the
active-session map. -/
theorem C4_three_turns_session_limit (limits : MandateLimits) (sessionIdIn : Option String)
    (now : Nat) (today : String) (messages : List Message)
    (hcap : limits.max_turns_per_session = 2)
    (hconc : 0 < limits.max_concurrent_sessions) :
    (limitsProcessInput limits sessionIdIn now today messages
      { activeSessions := [], dailyTokensUsed := 0, lastResetDate := today }).2 =
        .ok messages ∧
    (limitsProcessInput limits sessionIdIn now today messages
      (limitsProcessInput limits sessionIdIn now today messages
        { activeSessions := [], dailyTokensUsed := 0, lastResetDate := today }).1).2 =
        .ok messages ∧
    (limitsProcessInput limits sessionIdIn now today messages
      (limitsProcessInput limits sessionIdIn now today messages
        (limitsProcessInput limits sessionIdIn now today messages
          { activeSessions := [], dailyTokensUsed := 0, lastResetDate := today }).1).1).2 =
        .abort (sessionLimitMessage limits.max_turns_per_session) false ∧
    mapHas (limitsProcessInput limits sessionIdIn now today messages
      (limitsProcessInput limits sessionIdIn now today messages
        (limitsProcessInput limits sessionIdIn now today messages
          { activeSessions := [], dailyTokensUsed := 0, lastResetDate := today }).1).1).1.activeSessions
      (jsOrStr sessionIdIn "default") = false := by
  have h1 := limitsInput_fresh_session limits sessionIdIn now today messages hconc (by omega)
  have h2 := limitsInput_existing_session limits sessionIdIn now today messages 1
  have h3 := limitsInput_existing_session limits sessionIdIn now today messages 2
  rw [if_neg (by omega)] at h2
  rw [if_pos (by omega)] at h3
  rw [h1]
  simp only []
  rw [h2]
  simp only []
  rw [h3]
  simp [mapHas]

/-- C4 witness: the sample limits on session `s1`. -/
theorem C4_witness :
    (limitsProcessInput sampleMandate.limits (some "s1") 0 "2026-01-01" []
      { activeSessions := [], dailyTokensUsed := 0, lastResetDate := "2026-01-01" }).2 =
        .ok [] ∧
    (limitsProcessInput sampleMandate.limits (some "s1") 0 "2026-01-01" []
      (limitsProcessInput sampleMandate.limits (some "s1") 0 "2026-01-01" []
        { activeSessions := [], dailyTokensUsed := 0, lastResetDate := "2026-01-01" }).1).2 =
        .ok [] ∧
    (limitsProcessInput sampleMandate.limits (some "s1") 0 "2026-01-01" []
      (limitsProcessInput sampleMandate.limits (some "s1") 0 "2026-01-01" []
        (limitsProcessInput sampleMandate.limits (some "s1") 0 "2026-01-01" []
          { activeSessions := [], dailyTokensUsed := 0, lastResetDate := "2026-01-01" }).1).1).2 =
        .abort (sessionLimitMessage sampleMandate.limits.max_turns_per_session) false ∧
    mapHas (limitsProcessInput sampleMandate.limits (some "s1") 0 "2026-01-01" []
      (limitsProcessInput sampleMandate.limits (some "s1") 0 "2026-01-01" []
        (limitsProcessInput sampleMandate.limits (some "s1") 0 "2026-01-01" []
          { activeSessions := [], dailyTokensUsed := 0, lastResetDate := "2026-01-01" }).1).1).1.activeSessions
      (jsOrStr (some "s1") "default") = false :=
  C4_three_turns_session_limit sampleMandate.limits (some "s1") 0 "2026-01-01" []
    (by decide) (by decide)

/-- C5: on each result carrying an assistant message, the stage estimates
`⌈chars / 4⌉` tokens; exactly when the estimate exceeds the per-turn cap it
rewrites that message to its first `cap × 4` characters plus the fixed
truncation marker without aborting and without touching the daily counter;
otherwise the messages pass through unchanged and the estimate is added to
the daily counter. -/
theorem C5_limits_output_truncation (limits : MandateLimits) (today : String)
    (st0 : LimitsState) (messages : List Message) (msg : Message)
    (hlast : findLastMsg (fun m => m.role = "assistant") messages = some msg)
    (hdate : st0.lastResetDate = today) :
    ((msg.content.length + 3) / 4 > limits.max_tokens_per_turn →
      ∃ i, messages.get? i = some msg ∧
        limitsProcessOutputResult limits today messages st0 =
          (st0, .ok (messages.set i { msg with content := (jsSubstrTo msg.content
            (limits.max_tokens_per_turn * 4) ++ truncationMarker) }))) ∧
    ((msg.content.length + 3) / 4 ≤ limits.max_tokens_per_turn →
      limitsProcessOutputResult limits today messages st0 =
        ({ st0 with dailyTokensUsed := (st0.dailyTokensUsed + (msg.content.length + 3) / 4) },
         .ok messages)) := by
  have hreset : resetDailyIfNeeded today st0 = st0 := by
    simp [resetDailyIfNeeded, hdate]
  obtain ⟨i, hidx, hget, _⟩ := findLast_spec _ _ _ hlast
  constructor
  · intro h
    refine ⟨i, hget, ?_⟩
    unfold limitsProcessOutputResult
    rw [hreset, hlast]
    simp only []
    rw [if_pos h, hidx]
    simp only [setContentAt, hget]
  · intro h
    unfold limitsProcessOutputResult
    rw [hreset, hlast]
    simp only []
    rw [if_neg (by omega)]

set_option maxRecDepth 8000 in
/-- C5 witness: a 240-character response against a 50-token cap is truncated;
a 3-character response passes unchanged and its one-token estimate is
accumulated. -/
theorem C5_witness :
    (∃ i, ([⟨"assistant", longNoCiteText⟩] : List Message).get? i =
        some (⟨"assistant", longNoCiteText⟩ : Message) ∧
      limitsProcessOutputResult sampleMandateB.limits "2026-01-01"
        [⟨"assistant", longNoCiteText⟩]
        { activeSessions := [], dailyTokensUsed := 0, lastResetDate := "2026-01-01" } =
        ({ activeSessions := [], dailyTokensUsed := 0, lastResetDate := "2026-01-01" },
         .ok (([⟨"assistant", longNoCiteText⟩] : List Message).set i
          ⟨"assistant", (jsSubstrTo longNoCiteText
            (sampleMandateB.limits.max_tokens_per_turn * 4) ++ truncationMarker)⟩))) ∧
    limitsProcessOutputResult sampleMandateB.limits "2026-01-01"
      [⟨"assistant", "abc"⟩]
      { activeSessions := [], dailyTokensUsed := 0, lastResetDate := "2026-01-01" } =
      ({ activeSessions := [], dailyTokensUsed := (0 + ("abc".length + 3) / 4),
          lastResetDate := "2026-01-01" },
       .ok [⟨"assistant", "abc"⟩]) :=
  ⟨(C5_limits_output_truncation sampleMandateB.limits "2026-01-01"
      { activeSessions := [], dailyTokensUsed := 0, lastResetDate := "2026-01-01" }
      [⟨"assistant", longNoCiteText⟩]
      ⟨"assistant", longNoCiteText⟩ (by decide) rfl).1 (by decide),
   (C5_limits_output_truncation sampleMandateB.limits "2026-01-01"
      { activeSessions := [], dailyTokensUsed := 0, lastResetDate := "2026-01-01" }
      [⟨"assistant", "abc"⟩]
      ⟨"assistant", "abc"⟩ (by decide) rfl).2 (by decide)⟩

/-- Any text containing `Housing Act 2004, s.213` matches the first
citation-evidence pattern (`\bAct\s+\d{4}\b`), hence carries citations. -/
theorem hasCitations_housing (a b : String) :
    hasCitations (a ++ "Housing Act 2004, s.213" ++ b) = true := by
  have hm : matchAct (lastOpt none (a.data ++ "Housing ".data))
      ("Act 2004, s.213".data ++ b.data) = true := by
    rw [lastOpt_append]
    rfl
  have hsearch := searchP_append matchAct (a.data ++ "Housing ".data) none
      ("Act 2004, s.213".data ++ b.data) hm
  have hdata : (a ++ "Housing Act 2004, s.213" ++ b).data =
      (a.data ++ "Housing ".data) ++ ("Act 2004, s.213".data ++ b.data) := by
    show (a.data ++ "Housing Act 2004, s.213".data) ++ b.data =
      (a.data ++ "Housing ".data) ++ ("Act 2004, s.213".data ++ b.data)
    simp [List.append_assoc]
  have hfirst : testPat matchAct (a ++ "Housing Act 2004, s.213" ++ b) = true := by
    unfold testPat
    rw [hdata]
    exact hsearch
  unfold hasCitations
  rw [hfirst]
  simp

/-- With citations required and no blocked sources, the citation stage reduces
to the substantive-response citation check. -/
theorem citation_gate_reduction (citations : CitationRequirements)
    (messages : List Message) (msg : Message) (retryCount : Nat)
    (hreq : citations.required = true)
    (hblocked : citations.blocked_sources = [])
    (hlast : findLastMsg (fun m => m.role = "assistant") messages = some msg) :
    citationProcessOutputResult citations messages retryCount =
      (if msg.content.length > 200 then
        (if hasCitations msg.content = false then
          (if retryCount < 2 then .abort lacksCitationsReason true else .ok messages)
         else .ok messages)
       else .ok messages) := by
  unfold citationProcessOutputResult
  rw [hreq, hlast, hblocked]
  simp only [List.find?]
  by_cases hlen : msg.content.length > 200
  · by_cases hcit : hasCitations msg.content = false
    · simp [hlen, hcit]
    · simp [hlen, hcit]
  · simp [hlen]

/-- C6: with citations required (and no blocked sources configured): a final
assistant response of at most 200 characters passes unmodified; a longer
response matching no citation pattern soft-aborts with the lacks-citations
reason while `retryCount < 2` and passes unmodified once `retryCount` reaches
2; a longer response containing `Housing Act 2004, s.213` passes. -/
theorem C6_citation_gate (citations : CitationRequirements) (messages : List Message)
    (msg : Message) (retryCount : Nat)
    (hreq : citations.required = true)
    (hblocked : citations.blocked_sources = [])
    (hlast : findLastMsg (fun m => m.role = "assistant") messages = some msg) :
    (msg.content.length ≤ 200 →
      citationProcessOutputResult citations messages retryCount = .ok messages) ∧
    (200 < msg.content.length → hasCitations msg.content = false →
      (retryCount < 2 →
        citationProcessOutputResult citations messages retryCount =
          .abort lacksCitationsReason true) ∧
      (2 ≤ retryCount →
        citationProcessOutputResult citations messages retryCount = .ok messages)) ∧
    (∀ a b : String, msg.content = a ++ "Housing Act 2004, s.213" ++ b →
      200 < msg.content.length →
      citationProcessOutputResult citations messages retryCount = .ok messages) := by
  have hbase := citation_gate_reduction citations messages msg retryCount hreq hblocked hlast
  refine ⟨?_, ?_, ?_⟩
  · intro hlen
    rw [hbase, if_neg (by omega)]
  · intro hlen hcit
    constructor
    · intro hrc
      rw [hbase, if_pos hlen, if_pos hcit, if_pos hrc]
    · intro hrc
      rw [hbase, if_pos hlen, if_pos hcit, if_neg (by omega)]
  · intro a b hab hlen
    have hcit : hasCitations msg.content = true := by
      rw [hab]
      exact hasCitations_housing a b
    rw [hbase, if_pos hlen, if_neg (by simp [hcit])]

set_option maxRecDepth 16000 in
/-- C6 witness: the four concrete gate scenarios — short response passes, long
uncited response soft-aborts then passes after two retries, long Housing-Act
response passes. -/
theorem C6_witness :
    citationProcessOutputResult sampleCitations [⟨"assistant", "short"⟩] 0 =
      .ok [⟨"assistant", "short"⟩] ∧
    citationProcessOutputResult sampleCitations [⟨"assistant", longNoCiteText⟩] 0 =
      .abort lacksCitationsReason true ∧
    citationProcessOutputResult sampleCitations [⟨"assistant", longNoCiteText⟩] 2 =
      .ok [⟨"assistant", longNoCiteText⟩] ∧
    citationProcessOutputResult sampleCitations [⟨"assistant", longCiteText⟩] 0 =
      .ok [⟨"assistant", longCiteText⟩] :=
  ⟨(C6_citation_gate sampleCitations [⟨"assistant", "short"⟩]
      ⟨"assistant", "short"⟩ 0 rfl rfl (by decide)).1 (by decide),
   ((C6_citation_gate sampleCitations [⟨"assistant", longNoCiteText⟩]
      ⟨"assistant", longNoCiteText⟩ 0 rfl rfl (by decide)).2.1
      (by decide) (by decide)).1 (by decide),
   ((C6_citation_gate sampleCitations [⟨"assistant", longNoCiteText⟩]
      ⟨"assistant", longNoCiteText⟩ 2 rfl rfl (by decide)).2.1
      (by decide) (by decide)).2 (by decide),
   (C6_citation_gate sampleCitations [⟨"assistant", longCiteText⟩]
      ⟨"assistant", longCiteText⟩ 0 rfl rfl (by decide)).2.2
     "Your landlord must protect your deposit under the "
     (" within 30 days of receiving it, otherwise you can claim compensation of up " ++
      "to three times the deposit amount through the county court process as the " ++
      "legislation sets out.")
     (by decide) (by decide)⟩
